import Mathlib

/-!
Verification of the LibreChatObsidianSync repository: a shallow embedding in
Lean 4 of the Tool Gateway (src/McpService) and the Sync Worker (src/Worker),
together with theorems settling the specification claims about file ids,
path handling, the sync circuit breaker, indexing throttling, RAG error
handling, and the request middleware.

Paths are represented as lists of segments (the `parts` view of Python
`pathlib.Path`); filesystem state is an association list from resolved
absolute paths to file contents; effects (file writes, RAG calls, git
subprocess calls, sleeps) are recorded as explicit event traces.
-/

namespace PathModel

/-- Split a character list on the slash character into raw path chunks. -/
def splitSegCore : List Char → List String
  | [] => [""]
  | c :: rest =>
      if c = '/' then "" :: splitSegCore rest
      else match splitSegCore rest with
        | [] => [String.mk [c]]
        | seg :: segs => (String.mk [c] ++ seg) :: segs

/-- Split a relative path string on the slash character into its segments,
dropping empty segments (pathlib collapses doubled slashes). -/
def splitSeg (s : String) : List String :=
  (splitSegCore s.toList).filter (fun seg => seg ≠ "")

/-- OS-level resolution of `.` and `..` segments against an absolute base
path (a list of segments below the filesystem root); `..` at the root stays
at the root, as on POSIX. This is what the kernel does when the Gateway
opens `user_dir / filename` for reading or writing. -/
def resolveSegs : List String → List String → List String
  | acc, [] => acc
  | acc, seg :: rest =>
      if seg = ".." then resolveSegs acc.dropLast rest
      else if seg = "." then resolveSegs acc rest
      else resolveSegs (acc ++ [seg]) rest

/-- Resolved absolute path of `base / name` for a caller-supplied relative
`name` (Python `user_dir / filename` followed by OS resolution on open). -/
def resolvePath (base : List String) (name : String) : List String :=
  resolveSegs base (splitSeg name)

/-- Whether `p` lies at or below directory `q`. -/
def isDescendant (p q : List String) : Bool := q.isPrefixOf p

/-- Join path segments with slashes (Python `str(PurePosixPath(...))` for a
relative path). -/
def joinSegs (segs : List String) : String := String.intercalate "/" segs

/-- Render an absolute path (segments below the filesystem root). -/
def absPathString (segs : List String) : String := "/" ++ joinSegs segs

/-- Character-level `startswith`. -/
def strStartsWith (pre s : String) : Bool := pre.toList.isPrefixOf s.toList

/-- Character-level `endswith`. -/
def strEndsWith (suf s : String) : Bool := suf.toList.isSuffixOf s.toList

/-- Whether `sub` occurs as a contiguous sublist of `l`. -/
def listInfix (sub : List Char) : List Char → Bool
  | [] => sub.isEmpty
  | c :: rest => sub.isPrefixOf (c :: rest) || listInfix sub rest

/-- Character-level substring containment. -/
def strContains (sub s : String) : Bool := listInfix sub.toList s.toList

end PathModel

namespace FileStorage

/-- Gateway `get_file_id` (src/McpService/tools/file_storage.py line 131):
`f"user_{user_id}_{filename}"`, where `filename` is the raw tool argument. -/
def get_file_id (user_id filename : String) : String :=
  "user_" ++ user_id ++ "_" ++ filename

end FileStorage

namespace Worker

/-- Worker `IndexingManager.get_file_id` (src/Worker/main.py line 134):
`f"user_{self.user_id}_{filename}"`. -/
def get_file_id (user_id filename : String) : String :=
  "user_" ++ user_id ++ "_" ++ filename

/-- The filename `IndexingManager.index_file` passes to `get_file_id`:
`str(file_path.relative_to(self.vault_path))`, i.e. the path relative to
`⟨root⟩/⟨user⟩/obsidian_vault` — without any `obsidian_vault/` prefix. -/
def indexFileFilename (relToVault : List String) : String :=
  PathModel.joinSegs relToVault

/-- The file id the Worker actually sends for a vault file at vault-relative
path `relToVault`. -/
def indexFileId (user_id : String) (relToVault : List String) : String :=
  get_file_id user_id (indexFileFilename relToVault)

end Worker

/-- The canonical file id format fixed by the specification (§4.4):
`user_⟨user_id⟩_obsidian_vault/⟨vault_rel_path⟩`, the vault-relative path
including the `obsidian_vault/` prefix. -/
def canonicalFileId (user_id : String) (relToVault : List String) : String :=
  "user_" ++ user_id ++ "_obsidian_vault/" ++ PathModel.joinSegs relToVault

namespace Storage

/-- Placeholder detection used across the sources:
`value.startswith("{{") and value.endswith("}}")`. -/
def isPlaceholder (s : String) : Bool :=
  PathModel.strStartsWith "\x7b\x7b" s && PathModel.strEndsWith "\x7d\x7d" s

/-- Gateway `get_current_user` (src/McpService/shared/storage.py lines
29-43): the context variable holds `Option String`; Python `if not user_id`
rejects both an unset context and the empty string, and a `{{…}}`
placeholder is rejected next. A raised `ValueError` is modelled as
`Except.error`. -/
def get_current_user (ctx : Option String) : Except String String :=
  match ctx with
  | none => .error "No user context set. User must be authenticated via OAuth."
  | some u =>
      if u = "" then
        .error "No user context set. User must be authenticated via OAuth."
      else if isPlaceholder u then
        .error ("Invalid user_id: " ++ u ++ " appears to be an unreplaced placeholder.")
      else .ok u

end Storage

namespace Exclusion

/-- Whether a path segment starts with a dot. -/
def hiddenSeg (s : String) : Bool := PathModel.strStartsWith "." s

/-- The `hash_file_names` set of `_should_exclude_file`. -/
def hashFileNames : List String := ["sync_hashes.json", "git_config.json"]

/-- `_should_exclude_file` (src/McpService/tools/file_storage.py lines
136-180) for a file below `user_dir`, where `rel` is the list of path parts
relative to `user_dir`. The checks, in source order: a file directly in the
root (relative parent `.`), a `.git` part, a hash-file name, any part
starting with a dot. -/
def shouldExcludeFile (rel : List String) : Bool :=
  if rel.length ≤ 1 then true
  else if rel.contains ".git" then true
  else if hashFileNames.contains (rel.getLastD "") then true
  else if rel.any hiddenSeg then true
  else false

/-- Whether `list_files` (file_storage.py lines 448-498) visits and keeps a
file whose path relative to `user_dir` is `rel`: it iterates only
subdirectories of `user_dir` whose name does not start with a dot, recurses
with `rglob`, and drops everything `_should_exclude_file` rejects. Files
directly in `user_dir` are never visited. -/
def listFilesIncludes (rel : List String) : Bool :=
  match rel with
  | [] => false
  | [_] => false
  | d :: _ :: _ => !hiddenSeg d && !shouldExcludeFile rel

/-- Whether the Worker vault scan of `_index_vault_files` (src/Worker/main.py
lines 431-460) keeps a file at vault-relative parts `relV`: `os.walk` prunes
directories starting with a dot, only `*.md` files are kept, any part
starting with a dot is excluded, and files directly at the vault root
(relative parent `.`) are skipped. -/
def workerScanIncludes (relV : List String) : Bool :=
  PathModel.strEndsWith ".md" (relV.getLastD "")
    && !(relV.any hiddenSeg)
    && decide (2 ≤ relV.length)

/-- The post-filter of `_query_vectordb_direct` (file_storage.py lines
887-917) applied to one vector record, with the record's effective filename
given as path segments. `none` models the `"unknown"` fallback (a record
with no `filename` metadata and a `custom_id` not of the form
`user_⟨u⟩_…`), which the source appends without any exclusion check. For a
known filename: a base name (relative parent `.`) is dropped as root-level,
then `_should_exclude_file` is consulted. -/
def queryFilterIncludes : Option (List String) → Bool
  | none => true
  | some segs => !decide (segs.length ≤ 1) && !shouldExcludeFile segs

end Exclusion


namespace Tools

/-- File-system state: association list from resolved absolute path to file
contents. -/
abbrev FS := List (List String × String)

/-- Contents at a resolved path, if a file exists there. -/
def fsRead : FS → List String → Option String
  | [], _ => none
  | (q, c) :: rest, p => if q = p then some c else fsRead rest p

/-- Create or overwrite the file at a resolved path. -/
def fsWrite (fs : FS) (p : List String) (c : String) : FS :=
  (p, c) :: fs.filter (fun e => e.1 ≠ p)

/-- Unlink the file at a resolved path. -/
def fsRemove (fs : FS) (p : List String) : FS :=
  fs.filter (fun e => e.1 ≠ p)

/-- Externally visible effects of one tool call. Git commit/push effects of
`_trigger_git_commit` are best-effort and non-fatal in the source and are
not claim-relevant here, so they are not traced. -/
inductive Ev
  | fileWrite (p : List String) (content : String)
  | fileUnlink (p : List String)
  | ragEmbed (fileId : String)
  | ragDelete (fileId : String)
deriving DecidableEq

deriving instance DecidableEq for Except

/-- Result of one tool call: final file-system state, effect trace, and
either the returned string (`ok`, which may itself spell `Error: …`) or a
raised exception (`error`, the source raises `RuntimeError`). -/
structure ToolOut where
  fs : FS
  events : List Ev
  result : Except String String
deriving DecidableEq

/-- Gateway `upload_file` (file_storage.py lines 315-419). `root` is
`STORAGE_ROOT` as absolute segments; the target is `user_dir / filename`
with no traversal check of any kind; the write happens first, then the RAG
embed (`ragOk` tells whether `POST /embed` returned 2xx); on embed failure
the freshly written file is unlinked and `RuntimeError` is raised. -/
def uploadFile (root : List String) (user filename content : String)
    (fs : FS) (ragOk : Bool) : ToolOut :=
  let userDir := root ++ [user]
  let target := PathModel.resolvePath userDir filename
  match fsRead fs target with
  | some _ =>
      ⟨fs, [], .ok ("Error: File \x27" ++ filename
        ++ "\x27 already exists. Use modify_file to update it.")⟩
  | none =>
      let fs1 := fsWrite fs target content
      let fid := FileStorage.get_file_id user filename
      if ragOk then
        ⟨fs1, [.fileWrite target content, .ragEmbed fid],
          .ok ("Successfully uploaded \x27" ++ filename ++ "\x27 ("
            ++ toString content.length ++ " bytes) to "
            ++ PathModel.absPathString target)⟩
      else
        ⟨fsRemove fs1 target,
          [.fileWrite target content, .ragEmbed fid, .fileUnlink target],
          .error "Failed to index file in RAG API"⟩

/-- Gateway `modify_file` (file_storage.py lines 524-628): overwrite the
existing file, delete old embeddings, re-embed. On embed failure a
`RuntimeError` is raised but the file keeps the freshly written content —
there is no rollback in the source. -/
def modifyFile (root : List String) (user filename content : String)
    (fs : FS) (ragOk : Bool) : ToolOut :=
  let userDir := root ++ [user]
  let target := PathModel.resolvePath userDir filename
  match fsRead fs target with
  | none =>
      ⟨fs, [], .ok ("Error: File \x27" ++ filename
        ++ "\x27 not found. Use upload_file to create new files.")⟩
  | some _ =>
      let fs1 := fsWrite fs target content
      let fid := FileStorage.get_file_id user filename
      let evs := [Ev.fileWrite target content, Ev.ragDelete fid, Ev.ragEmbed fid]
      if ragOk then
        ⟨fs1, evs, .ok ("Successfully modified \x27" ++ filename ++ "\x27 ("
          ++ toString content.length ++ " bytes)")⟩
      else
        ⟨fs1, evs, .error "Failed to re-index file in RAG API"⟩

/-- Gateway `delete_file` (file_storage.py lines 631-690): issue the RAG
delete (`ragDeleteOk` tells whether it succeeded — any failure is logged and
swallowed), then unlink the file; the deletion proceeds either way. -/
def deleteFile (root : List String) (user filename : String)
    (fs : FS) (ragDeleteOk : Bool) : ToolOut :=
  let userDir := root ++ [user]
  let target := PathModel.resolvePath userDir filename
  match fsRead fs target with
  | none =>
      ⟨fs, [], .ok ("Error: File \x27" ++ filename
        ++ "\x27 not found in your storage.")⟩
  | some _ =>
      let fid := FileStorage.get_file_id user filename
      let _ := ragDeleteOk
      ⟨fsRemove fs target, [.ragDelete fid, .fileUnlink target],
        .ok ("Successfully deleted \x27" ++ filename ++ "\x27")⟩

/-- `upload_file` as invoked through the MCP layer: the body starts with
`user_id = get_current_user()`, whose `ValueError` propagates before any
file or RAG activity. -/
def uploadFileTool (ctx : Option String) (root : List String)
    (filename content : String) (fs : FS) (ragOk : Bool) : ToolOut :=
  match Storage.get_current_user ctx with
  | .error e => ⟨fs, [], .error e⟩
  | .ok u => uploadFile root u filename content fs ragOk

/-- `modify_file` behind the `get_current_user` guard. -/
def modifyFileTool (ctx : Option String) (root : List String)
    (filename content : String) (fs : FS) (ragOk : Bool) : ToolOut :=
  match Storage.get_current_user ctx with
  | .error e => ⟨fs, [], .error e⟩
  | .ok u => modifyFile root u filename content fs ragOk

/-- `delete_file` behind the `get_current_user` guard. -/
def deleteFileTool (ctx : Option String) (root : List String)
    (filename : String) (fs : FS) (ragDeleteOk : Bool) : ToolOut :=
  match Storage.get_current_user ctx with
  | .error e => ⟨fs, [], .error e⟩
  | .ok u => deleteFile root u filename fs ragDeleteOk

end Tools


namespace Worker

/-- Default of env `MAX_FILES_PER_CYCLE` (Worker main.py line 28). -/
def MAX_FILES_PER_CYCLE : Nat := 10

/-- Default of env `INDEX_DELAY` (0.5 seconds, line 30), in milliseconds so
the model stays in `Nat`. -/
def INDEX_DELAY_MS : Nat := 500

/-- One candidate markdown file of a vault scan: its vault-relative path
parts, its `st_mtime`, and whether `_has_changed` holds (current MD5 differs
from the `sync_hashes.json` entry, or the entry is absent). -/
structure MdFile where
  rel : List String
  mtime : Nat
  changed : Bool
deriving DecidableEq

/-- The comparison `md_files.sort(key=lambda p: p.stat().st_mtime,
reverse=True)` sorts by: `a` before `b` when `b.mtime ≤ a.mtime`. -/
def mtimeDesc (a b : MdFile) : Prop := b.mtime ≤ a.mtime

instance : DecidableRel mtimeDesc := fun a b => Nat.decLe b.mtime a.mtime

instance : IsTotal MdFile mtimeDesc := ⟨fun a b => Nat.le_total b.mtime a.mtime⟩

instance : IsTrans MdFile mtimeDesc := ⟨fun _ _ _ h1 h2 => Nat.le_trans h2 h1⟩

/-- Steps of `_index_vault_files` (Worker main.py lines 462-484) after the
scan: sort all candidates by mtime descending (Python `list.sort` is stable;
so is insertion sort), filter to changed files preserving that order, and
take the first `MAX_FILES_PER_CYCLE`. -/
def filesToIndex (cands : List MdFile) : List MdFile :=
  ((cands.insertionSort mtimeDesc).filter (fun f => f.changed)).take MAX_FILES_PER_CYCLE

/-- Observable events of the Worker indexing loop. -/
inductive WEv
  | index (rel : List String)
  | updateHash (rel : List String)
  | sleep (ms : Nat)
deriving DecidableEq

/-- The indexing loop of `_index_vault_files` (lines 486-499): for each
selected file, `index_file` then `_update_hash`, and a `time.sleep
(INDEX_DELAY)` after every file except the last (`indexed_count <
len(files_to_index)`). -/
def indexLoop : List MdFile → List WEv
  | [] => []
  | [f] => [.index f.rel, .updateHash f.rel]
  | f :: g :: rest =>
      .index f.rel :: .updateHash f.rel :: .sleep INDEX_DELAY_MS
        :: indexLoop (g :: rest)

/-- Hash database (`sync_hashes.json`) as a map from file path to MD5 hex. -/
abbrev HashDB := List (List String × String)

/-- Record a path-to-hash binding (`hashes[str(file_path)] = ...`). -/
def hashWrite (hashes : HashDB) (p : List String) (md5 : String) : HashDB :=
  (p, md5) :: hashes.filter (fun e => e.1 ≠ p)

/-- One iteration of the indexing loop body for the file at `p` whose
current content hash is `md5`: `self.indexer.index_file(file_path)` returns
a Bool — `embedOk`, whether `POST /embed` succeeded — which the caller
discards, and `self._update_hash(file_path)` then records the hash
unconditionally (`index_file` never raises: every exception path inside it
returns `False`). -/
def indexLoopBody (hashes : HashDB) (p : List String) (md5 : String)
    (embedOk : Bool) : HashDB :=
  let _ := embedOk
  hashWrite hashes p md5

/-- Disk-level operations, to express atomic-rename versus direct write. -/
inductive DiskOp
  | writeFile (p : List String)
  | renameFile (src dst : List String)
deriving DecidableEq

/-- Whether a disk operation is a rename. -/
def isRenameOp : DiskOp → Bool
  | .renameFile _ _ => true
  | .writeFile _ => false

/-- Disk operations of `GitSync._update_hash` (Worker main.py lines
520-535): a single direct `open(hash_db_path, "w")` write of
`sync_hashes.json` — no temp file, no rename. -/
def updateHashDiskOps (userDir : List String) : List DiskOp :=
  [.writeFile (userDir ++ ["sync_hashes.json"])]

/-- Disk operations of `SyncManager._update_sync_status` (lines 593-597),
for contrast: write `git_config.json.tmp`, then `Path.replace` it onto
`git_config.json`. -/
def updateSyncStatusDiskOps (userDir : List String) : List DiskOp :=
  [.writeFile (userDir ++ ["git_config.json.tmp"]),
   .renameFile (userDir ++ ["git_config.json.tmp"])
     (userDir ++ ["git_config.json"])]

/-- The persisted `git_config.json` of one user. Optional fields model the
presence or absence of the corresponding JSON keys. -/
structure SyncConfig where
  repo_url : String
  branch : String
  token : Option String
  updated_at : String
  failure_count : Nat
  stopped : Bool
  last_failure : Option String
  last_failure_error : Option String
  last_success : Option String
  auto_configured : Bool
deriving DecidableEq

/-- `SyncManager.MAX_FAILURES` (Worker main.py line 545). -/
def MAX_FAILURES : Nat := 5

/-- `SyncManager._update_sync_status` (Worker main.py lines 554-600). On
success: `failure_count = 0`, `last_success` set, `stopped = False`, and
`config.pop("last_failure", None)` — the source removes only
`last_failure`, not `last_failure_error`. On failure: increment the count,
record `last_failure` and `last_failure_error`, and set `stopped` when the
incremented count reaches `MAX_FAILURES`. -/
def updateSyncStatus (c : SyncConfig) (success : Bool) (now err : String) :
    SyncConfig :=
  if success then
    { c with failure_count := 0, last_success := some now, stopped := false,
             last_failure := none }
  else
    { c with failure_count := c.failure_count + 1,
             last_failure := some now,
             last_failure_error := some err,
             stopped := if MAX_FAILURES ≤ c.failure_count + 1 then true
                        else c.stopped }

/-- `reset_obsidian_sync_failures` (src/McpService/tools/obsidian_sync.py
lines 302-340): zero the count, clear `stopped`, pop both `last_failure`
and `last_failure_error`, stamp `updated_at`, atomic write. -/
def resetFailures (c : SyncConfig) (now : String) : SyncConfig :=
  { c with failure_count := 0, stopped := false, last_failure := none,
           last_failure_error := none, updated_at := now }

/-- `configure_obsidian_sync` (obsidian_sync.py lines 113-130) with both
`repo_url` and `token` supplied: the freshly built config dict — no
`last_failure*` keys, failure state cleared. -/
def configureSync (url tok br now : String) : SyncConfig :=
  { repo_url := url, branch := br, token := some tok, updated_at := now,
    failure_count := 0, stopped := false, last_failure := none,
    last_failure_error := none, last_success := none,
    auto_configured := false }

/-- The config seeded by header auto-configuration; like `configureSync`
but with `auto_configured = true` (spec §4.6 and
tests/unit/test_obsidian_sync_tools.py). -/
def autoConfigSeed (url tok br now : String) : SyncConfig :=
  { configureSync url tok br now with auto_configured := true }

/-- One scheduler visit to a configured user (`SyncManager.process_cycle`,
Worker main.py lines 602-650): a user whose config has `stopped` set is
skipped with no sync attempt; otherwise the sync runs and
`_update_sync_status` records the outcome. The Bool tells whether a sync
was attempted. -/
def schedulerStep (c : SyncConfig) (syncOk : Bool) (now err : String) :
    SyncConfig × Bool :=
  if c.stopped then (c, false)
  else (updateSyncStatus c syncOk now err, true)

/-- Sync configurations reachable through the writers of `git_config.json`:
initial configuration (manual tool or header auto-config), scheduler
cycles, and the explicit reset tool. -/
inductive ReachableConfig : SyncConfig → Prop
  | configured (url tok br now : String) :
      ReachableConfig (configureSync url tok br now)
  | autoConfigured (url tok br now : String) :
      ReachableConfig (autoConfigSeed url tok br now)
  | cycle {c : SyncConfig} (syncOk : Bool) (now err : String) :
      ReachableConfig c → ReachableConfig (schedulerStep c syncOk now err).1
  | reset {c : SyncConfig} (now : String) :
      ReachableConfig c → ReachableConfig (resetFailures c now)

/-- Git-level events of one `GitSync.sync`. -/
inductive GitEv
  | pullAttempt
  | indexPass
  | gitAdd
  | gitCommit
  | pushAttempt
  | backoffSleep (seconds : Nat)
deriving DecidableEq

/-- `GitSync.sync` (Worker main.py lines 363-391): a single
`repo.remotes.origin.pull(self.branch)` inside a try that logs and
re-raises — no retry loop, no sleep — then `_index_vault_files`, then, if
the tree is dirty, `git add -A`, commit, and a single
`repo.remotes.origin.push(self.branch)`, equally without retry. The Bool is
success; `false` propagates as an exception to `SyncManager`. -/
def gitSyncRun (pullOk dirty pushOk : Bool) : List GitEv × Bool :=
  if !pullOk then ([.pullAttempt], false)
  else if dirty then
    ([.pullAttempt, .indexPass, .gitAdd, .gitCommit, .pushAttempt], pushOk)
  else ([.pullAttempt, .indexPass], true)

/-- The retry policy the specification (§4.7) claims for pull and push,
written from the words of the spec for comparison with `gitSyncRun`: up to
3 retries after the initial attempt (backoff 1s, 2s, 4s) before the failure
propagates; `attemptOk n` is the outcome the remote would give attempt
`n`. Under that policy the operation succeeds iff one of the first four
attempts succeeds. -/
def specClaimedRetrySucceeds (attemptOk : Nat → Bool) : Bool :=
  attemptOk 0 || attemptOk 1 || attemptOk 2 || attemptOk 3

end Worker


namespace Middleware

/-- Modelled from the spec: `auto_configure_obsidian_sync` is imported by
the middleware (src/McpService/shared/middleware.py line 81) and exercised
by tests/unit/test_obsidian_sync_tools.py, but its definition is not among
the sources. Per spec §4.6 the operation raises a `ValidationError` when any
of `repo_url`, `token`, `branch` is a `{{…}}` placeholder; it is idempotent
when the current config already names the same `repo_url` and `branch` (no
rewrite, modelled as `.ok none`); otherwise it atomically persists a fresh
`git_config.json` seeded from the headers with `auto_configured = true` and
the failure state cleared (`.ok (some newConfig)`). -/
def auto_configure_obsidian_sync (existing : Option Worker.SyncConfig)
    (url tok br now : String) : Except String (Option Worker.SyncConfig) :=
  if Storage.isPlaceholder url || Storage.isPlaceholder tok
      || Storage.isPlaceholder br then
    .error "ValidationError: placeholder values in sync configuration"
  else
    match existing with
    | some c =>
        if c.repo_url = url && c.branch = br then .ok none
        else .ok (some (Worker.autoConfigSeed url tok br now))
    | none => .ok (some (Worker.autoConfigSeed url tok br now))

/-- One `/mcp` request as the middleware sees it: the user id resolved from
the bearer token (`none` when the header is absent, malformed, or the token
is unknown to the store), and the three Obsidian headers. -/
structure McpRequest where
  authUser : Option String
  repoUrlHeader : Option String
  tokenHeader : Option String
  branchHeader : Option String

/-- Events of one middleware dispatch, in order. -/
inductive MwEv
  | setUser (u : Option String)
  | setHeaders (url tok : Option String) (br : String)
  | autoConfigureCall (u url tok br : String)
  | logAutoConfigFailure
  | callNext
deriving DecidableEq

/-- The response the middleware returns. -/
inductive MwResponse
  | unauthorized401
  | nextResponse
deriving DecidableEq

/-- Python header lookup truthiness: an empty header value falls through the
`or` chain exactly like an absent one. -/
def headerVal : Option String → Option String
  | some s => if s = "" then none else some s
  | none => none

/-- `SetUserIdFromHeaderMiddleware.dispatch` (middleware.py lines 18-114)
on an `/mcp` path. With a valid (non-empty, non-placeholder) user id: set
the user context, stash the three headers (branch defaulting to `"main"`),
and — when repo-url and token are both present and neither is a placeholder
— `await auto_configure_obsidian_sync(...)` inside a try whose except logs
and continues; then `call_next`. Without a valid user id: 401 with
`WWW-Authenticate: Bearer`. `autoConfigFails` abstracts whether the
auto-configuration call raises; the trailing context cleanup is elided. -/
def dispatch (req : McpRequest) (autoConfigFails : Bool) :
    List MwEv × MwResponse :=
  match req.authUser with
  | some u =>
      if u ≠ "" && !Storage.isPlaceholder u then
        let url := headerVal req.repoUrlHeader
        let tok := headerVal req.tokenHeader
        let br := (headerVal req.branchHeader).getD "main"
        let pre := [MwEv.setUser (some u), MwEv.setHeaders url tok br]
        match url, tok with
        | some url0, some tok0 =>
            if !Storage.isPlaceholder url0 && !Storage.isPlaceholder tok0 then
              (pre ++ [MwEv.autoConfigureCall u url0 tok0 br]
                ++ (if autoConfigFails then [MwEv.logAutoConfigFailure] else [])
                ++ [MwEv.callNext], .nextResponse)
            else (pre ++ [MwEv.callNext], .nextResponse)
        | _, _ => (pre ++ [MwEv.callNext], .nextResponse)
      else ([MwEv.setUser none], .unauthorized401)
  | none => ([MwEv.setUser none], .unauthorized401)

end Middleware


namespace Worker

/-- Whether a git event is a backoff sleep. -/
def isBackoffEv : GitEv → Bool
  | .backoffSleep _ => true
  | _ => false

/-- The shape the indexing-loop trace is claimed to have: per-file blocks
(index, then hash update) separated by exactly one `INDEX_DELAY` sleep. -/
def indexLoopSpec (files : List MdFile) : List WEv :=
  ((files.map (fun f => [WEv.index f.rel, WEv.updateHash f.rel])).intersperse
    [WEv.sleep INDEX_DELAY_MS]).flatten

end Worker

section HelperLemmas

/-- Keys absent from the file system are untouched by a key filter. -/
theorem fsFilter_of_read_none {fs : Tools.FS} {p : List String}
    (h : Tools.fsRead fs p = none) :
    fs.filter (fun e => e.1 ≠ p) = fs := by
  induction fs with
  | nil => rfl
  | cons e rest ih =>
      by_cases hq : e.1 = p
      · simp [Tools.fsRead, hq] at h
      · have hr : Tools.fsRead rest p = none := by
          simpa [Tools.fsRead, hq] using h
        have hb : (decide (e.1 ≠ p)) = true := by simpa using hq
        simp only [List.filter_cons, hb, if_true, ih hr]

/-- Reading back a fresh write. -/
theorem fsRead_fsWrite_self (fs : Tools.FS) (p : List String) (c : String) :
    Tools.fsRead (Tools.fsWrite fs p c) p = some c := by
  simp [Tools.fsWrite, Tools.fsRead]

/-- Reading after an unlink. -/
theorem fsRead_fsRemove_self (fs : Tools.FS) (p : List String) :
    Tools.fsRead (Tools.fsRemove fs p) p = none := by
  induction fs with
  | nil => rfl
  | cons e rest ih =>
      by_cases hq : e.1 = p
      · simpa [Tools.fsRemove, hq] using ih
      · simpa [Tools.fsRemove, Tools.fsRead, hq] using ih

/-- Unlinking a file that was just created restores the original state. -/
theorem fsRemove_fsWrite_of_none {fs : Tools.FS} {p : List String}
    (c : String) (h : Tools.fsRead fs p = none) :
    Tools.fsRemove (Tools.fsWrite fs p c) p = fs := by
  simp [Tools.fsRemove, Tools.fsWrite, List.filter_filter]
  simpa using fsFilter_of_read_none h

end HelperLemmas

/-- C1: the file_id join-key claim fails on the sources. For user `alice`
and the vault file at vault-relative path `notes/a.md` (stored under
`obsidian_vault/notes/a.md`, which is the tool argument the Gateway gets
for it), the Gateway computes the canonical id while the Worker call site
passes `str(file_path.relative_to(vault_path))` — the relative path without
the `obsidian_vault/` prefix — so the two components compute different ids
for the same file, contradicting both halves of the claim. -/
theorem C1_file_id_conventions_disagree :
    FileStorage.get_file_id "alice" "obsidian_vault/notes/a.md"
        = canonicalFileId "alice" ["notes", "a.md"]
      ∧ Worker.indexFileId "alice" ["notes", "a.md"]
        = "user_alice_notes/a.md"
      ∧ Worker.indexFileId "alice" ["notes", "a.md"]
        ≠ FileStorage.get_file_id "alice" "obsidian_vault/notes/a.md"
      ∧ Worker.indexFileId "alice" ["notes", "a.md"]
        ≠ canonicalFileId "alice" ["notes", "a.md"] := by
  refine ⟨by decide, by decide, by decide, by decide⟩

/-- C2: the traversal claim fails on the sources — `upload_file` performs no
path check at all. Authenticated as `alice` with storage root `/storage`,
`upload_file("../../evil.txt", "x")` resolves to `/evil.txt`, which is not a
descendant of `/storage/alice/obsidian_vault`; the file is created there,
and the returned string reports success and contains no `Error`. -/
theorem C2_upload_file_traversal_not_blocked :
    PathModel.resolvePath ["storage", "alice"] "../../evil.txt" = ["evil.txt"]
      ∧ PathModel.isDescendant ["evil.txt"]
          ["storage", "alice", "obsidian_vault"] = false
      ∧ (Tools.uploadFile ["storage"] "alice" "../../evil.txt" "x" [] true).fs
        = [(["evil.txt"], "x")]
      ∧ (Tools.uploadFile ["storage"] "alice" "../../evil.txt" "x" [] true).result
        = .ok "Successfully uploaded \x27../../evil.txt\x27 (1 bytes) to /evil.txt"
      ∧ PathModel.strContains "Error"
          "Successfully uploaded \x27../../evil.txt\x27 (1 bytes) to /evil.txt"
        = false := by
  refine ⟨by decide, by decide, by decide, by decide, by decide⟩

/-- C6: counterexample to the retry claim. With a remote that fails the
first pull attempt but would succeed on the second, `GitSync.sync` makes
exactly one pull attempt, sleeps never, and propagates the failure — while
the claimed up-to-3-retries policy would succeed on the same outcome
sequence. -/
theorem C6_pull_not_retried_counterexample :
    (Worker.gitSyncRun false true true).2 = false
      ∧ (Worker.gitSyncRun false true true).1.count Worker.GitEv.pullAttempt = 1
      ∧ (Worker.gitSyncRun false true true).1.countP Worker.isBackoffEv = 0
      ∧ Worker.specClaimedRetrySucceeds (fun n => decide (n ≠ 0)) = true := by
  refine ⟨by decide, by decide, by decide, by decide⟩

/-- C6 amended: in every Worker sync cycle the git pull is attempted exactly
once and the git push at most once (exactly once when the pull succeeded and
the tree is dirty), with no retry and no backoff sleep; a pull failure, or a
push failure on a dirty tree, propagates to the scheduler as a failed sync. -/
theorem C6_amended_single_attempt_propagates (pullOk dirty pushOk : Bool) :
    (Worker.gitSyncRun pullOk dirty pushOk).2 = (pullOk && (!dirty || pushOk))
      ∧ (Worker.gitSyncRun pullOk dirty pushOk).1.count
          Worker.GitEv.pullAttempt = 1
      ∧ (Worker.gitSyncRun pullOk dirty pushOk).1.count
          Worker.GitEv.pushAttempt = (if pullOk && dirty then 1 else 0)
      ∧ (Worker.gitSyncRun pullOk dirty pushOk).1.countP
          Worker.isBackoffEv = 0 := by
  cases pullOk <;> cases dirty <;> cases pushOk <;> refine ⟨by decide, by decide, by decide, by decide⟩

/-- C7: counterexample to the hash-iff-success claim. After an indexing
attempt whose `POST /embed` failed (`index_file` returned `False`, a result
the loop discards), `_update_hash` still records the file's MD5; and
`_update_hash` writes `sync_hashes.json` with a single direct write — no
temp file, no rename. -/
theorem C7_hash_recorded_despite_embed_failure :
    Tools.fsRead
        (Worker.indexLoopBody [] ["storage", "u", "obsidian_vault", "n", "a.md"]
          "0cc175b9c0f1b6a831c399e269772661" false)
        ["storage", "u", "obsidian_vault", "n", "a.md"]
      = some "0cc175b9c0f1b6a831c399e269772661"
      ∧ (Worker.updateHashDiskOps ["storage", "u"]).countP Worker.isRenameOp
        = 0 := by
  refine ⟨by decide, by decide⟩

/-- C7 amended: the Worker records the file's current MD5 in
`sync_hashes.json` after every indexing attempt, independently of whether
`POST /embed` succeeded (the Bool result of `index_file` is discarded), and
the hash database write is a single direct file write without the
temp-file-plus-rename pattern — which `_update_sync_status` (for
`git_config.json`) does use. -/
theorem C7_amended_hash_update_unconditional_and_direct
    (hashes : Worker.HashDB) (p : List String) (md5 : String) :
    (∀ embedOk : Bool,
        Worker.indexLoopBody hashes p md5 embedOk = Worker.hashWrite hashes p md5)
      ∧ Tools.fsRead (Worker.hashWrite hashes p md5) p = some md5
      ∧ (∀ userDir, (Worker.updateHashDiskOps userDir).countP Worker.isRenameOp = 0)
      ∧ (∀ userDir, (Worker.updateSyncStatusDiskOps userDir).countP
            Worker.isRenameOp = 1) := by
  refine ⟨fun _ => rfl, ?_, fun userDir => rfl, fun userDir => rfl⟩
  simp [Worker.hashWrite, Tools.fsRead]

/-- C5: counterexample to the rollback claim. `modify_file` on an existing
vault file whose re-indexing `POST /embed` fails raises `RuntimeError` but
leaves the file holding the freshly written content — the pre-call
file-system state (content `old`) is not restored. -/
theorem C5_modify_file_rag_failure_no_rollback :
    (Tools.modifyFile ["storage"] "alice" "obsidian_vault/notes/a.md" "new"
        [(["storage", "alice", "obsidian_vault", "notes", "a.md"], "old")]
        false).result
      = .error "Failed to re-index file in RAG API"
      ∧ Tools.fsRead
          (Tools.modifyFile ["storage"] "alice" "obsidian_vault/notes/a.md" "new"
            [(["storage", "alice", "obsidian_vault", "notes", "a.md"], "old")]
            false).fs
          ["storage", "alice", "obsidian_vault", "notes", "a.md"]
        = some "new"
      ∧ (Tools.modifyFile ["storage"] "alice" "obsidian_vault/notes/a.md" "new"
          [(["storage", "alice", "obsidian_vault", "notes", "a.md"], "old")]
          false).fs
        ≠ [(["storage", "alice", "obsidian_vault", "notes", "a.md"], "old")] := by
  refine ⟨by decide, by decide, by decide⟩

/-- C5 amended: on `upload_file` a RAG indexing failure unlinks the freshly
created file — restoring the pre-call state — and raises `RuntimeError`; on
`modify_file` a RAG failure raises `RuntimeError` but the file keeps the new
content (no rollback of the overwrite); on `delete_file` a RAG delete
failure is swallowed and the deletion proceeds and reports success. -/
theorem C5_amended_rag_failure_handling (root : List String)
    (user filename content : String) (fs : Tools.FS) :
    (Tools.fsRead fs (PathModel.resolvePath (root ++ [user]) filename) = none →
        (Tools.uploadFile root user filename content fs false).fs = fs
        ∧ (Tools.uploadFile root user filename content fs false).result
          = .error "Failed to index file in RAG API")
      ∧ (∀ old, Tools.fsRead fs (PathModel.resolvePath (root ++ [user]) filename)
            = some old →
          (Tools.modifyFile root user filename content fs false).result
            = .error "Failed to re-index file in RAG API"
          ∧ Tools.fsRead (Tools.modifyFile root user filename content fs false).fs
              (PathModel.resolvePath (root ++ [user]) filename) = some content)
      ∧ (∀ old, Tools.fsRead fs (PathModel.resolvePath (root ++ [user]) filename)
            = some old →
          ∀ ragDeleteOk,
            (Tools.deleteFile root user filename fs ragDeleteOk).result
              = .ok ("Successfully deleted \x27" ++ filename ++ "\x27")
            ∧ Tools.fsRead (Tools.deleteFile root user filename fs ragDeleteOk).fs
                (PathModel.resolvePath (root ++ [user]) filename) = none) := by
  refine ⟨?_, ?_, ?_⟩
  · intro h
    refine ⟨?_, ?_⟩
    · simp [Tools.uploadFile, h, fsRemove_fsWrite_of_none content h]
    · simp [Tools.uploadFile, h]
  · intro old h
    refine ⟨?_, ?_⟩
    · simp [Tools.modifyFile, h]
    · simp [Tools.modifyFile, h, fsRead_fsWrite_self]
  · intro old h ragDeleteOk
    refine ⟨?_, ?_⟩
    · simp [Tools.deleteFile, h]
    · simp [Tools.deleteFile, h, fsRead_fsRemove_self]

/-- C5 witness: the amended behavior at a concrete state — pre-call state
with `obsidian_vault/notes/a.md` holding `old`. -/
theorem C5_amended_witness :
    (Tools.modifyFile ["storage"] "alice" "obsidian_vault/notes/a.md" "new"
        [(["storage", "alice", "obsidian_vault", "notes", "a.md"], "old")]
        false).result
      = .error "Failed to re-index file in RAG API"
      ∧ (Tools.uploadFile ["storage"] "alice" "obsidian_vault/notes/b.md" "c"
          [] false).fs = [] :=
  ⟨((C5_amended_rag_failure_handling ["storage"] "alice"
      "obsidian_vault/notes/a.md" "new"
      [(["storage", "alice", "obsidian_vault", "notes", "a.md"], "old")]).2.1
      "old" (by decide)).1,
   ((C5_amended_rag_failure_handling ["storage"] "alice"
      "obsidian_vault/notes/b.md" "c" []).1 (by decide)).1⟩

/-- C10: when the per-request user context is unset (or empty, which Python
`if not user_id` treats the same way) or holds a `{{…}}` placeholder,
`get_current_user` raises `ValueError`, and every tool guarded by it
returns that error with the file system untouched and no RAG or file
events. -/
theorem C10_unauthenticated_context_rejected (ctx : Option String)
    (h : ctx = none ∨ ∃ u, ctx = some u ∧ Storage.isPlaceholder u = true) :
    (∃ e, Storage.get_current_user ctx = .error e)
      ∧ ∀ root filename content fs ragOk,
          (Tools.uploadFileTool ctx root filename content fs ragOk).fs = fs
          ∧ (Tools.uploadFileTool ctx root filename content fs ragOk).events = []
          ∧ (∃ e, (Tools.uploadFileTool ctx root filename content fs ragOk).result
              = .error e)
          ∧ (Tools.modifyFileTool ctx root filename content fs ragOk).fs = fs
          ∧ (Tools.modifyFileTool ctx root filename content fs ragOk).events = []
          ∧ (Tools.deleteFileTool ctx root filename fs ragOk).fs = fs
          ∧ (Tools.deleteFileTool ctx root filename fs ragOk).events = [] := by
  have he : ∃ e, Storage.get_current_user ctx = Except.error e := by
    rcases h with h | ⟨u, rfl, hp⟩
    · subst h; exact ⟨_, rfl⟩
    · by_cases h0 : u = ""
      · subst h0; exact ⟨_, rfl⟩
      · refine ⟨"Invalid user_id: " ++ u
          ++ " appears to be an unreplaced placeholder.", ?_⟩
        simp [Storage.get_current_user, h0, hp]
  obtain ⟨e, he⟩ := he
  refine ⟨⟨e, he⟩, ?_⟩
  intro root filename content fs ragOk
  refine ⟨?_, ?_, ⟨e, ?_⟩, ?_, ?_, ?_, ?_⟩ <;>
    simp [Tools.uploadFileTool, Tools.modifyFileTool, Tools.deleteFileTool, he]

/-- C10 witness: the placeholder context `{{LIBRECHAT_USER_ID}}` is
rejected and the upload tool leaves an empty storage empty. -/
theorem C10_witness :
    (∃ e, Storage.get_current_user (some "\x7b\x7bLIBRECHAT_USER_ID\x7d\x7d")
        = .error e)
      ∧ (Tools.uploadFileTool (some "\x7b\x7bLIBRECHAT_USER_ID\x7d\x7d")
          ["storage"] "notes/a.md" "hi" [] true).fs = [] := by
  have h := C10_unauthenticated_context_rejected
    (some "\x7b\x7bLIBRECHAT_USER_ID\x7d\x7d")
    (Or.inr ⟨"\x7b\x7bLIBRECHAT_USER_ID\x7d\x7d", rfl, by decide⟩)
  exact ⟨h.1, (h.2 ["storage"] "notes/a.md" "hi" [] true).1⟩

/-- Invariant of reachable sync configurations: the circuit breaker is open
only at or beyond `MAX_FAILURES` consecutive failures. -/
theorem reachable_stopped_implies_max {c : Worker.SyncConfig}
    (hr : Worker.ReachableConfig c) :
    c.stopped = true → Worker.MAX_FAILURES ≤ c.failure_count := by
  induction hr with
  | configured url tok br now => intro hs; simp [Worker.configureSync] at hs
  | autoConfigured url tok br now =>
      intro hs; simp [Worker.autoConfigSeed, Worker.configureSync] at hs
  | cycle syncOk now err hc ih =>
      rename_i c0
      by_cases hs0 : c0.stopped
      · simpa [Worker.schedulerStep, hs0] using ih
      · simp only [Worker.schedulerStep, hs0, if_false]
        cases syncOk with
        | true => intro hs; simp [Worker.updateSyncStatus] at hs
        | false =>
            intro hs
            simp only [Worker.updateSyncStatus, Bool.false_eq_true, if_false] at hs ⊢
            by_cases hm : Worker.MAX_FAILURES ≤ c0.failure_count + 1
            · simpa using hm
            · simp only [if_neg hm] at hs
              exact absurd hs (by simp [hs0])
  | reset now hc ih =>
      intro hs; simp [Worker.resetFailures] at hs

/-- C3: counterexample to the claim that after any successful sync both
`last_failure` and `last_failure_error` are absent. From a freshly
configured state, one failed cycle then one successful cycle is reachable,
and the successful `_update_sync_status` pops only `last_failure` — the
persisted config still carries `last_failure_error = "boom"`. -/
theorem C3_last_failure_error_survives_success :
    Worker.ReachableConfig
        (Worker.updateSyncStatus
          (Worker.updateSyncStatus
            (Worker.configureSync "https://h/r.git" "tok" "main" "t0")
            false "t1" "boom")
          true "t2" "")
      ∧ (Worker.updateSyncStatus
          (Worker.updateSyncStatus
            (Worker.configureSync "https://h/r.git" "tok" "main" "t0")
            false "t1" "boom")
          true "t2" "").last_failure_error = some "boom" := by
  constructor
  · have h0 := Worker.ReachableConfig.configured "https://h/r.git" "tok" "main" "t0"
    have h1 := Worker.ReachableConfig.cycle false "t1" "boom" h0
    have h2 := Worker.ReachableConfig.cycle true "t2" "" h1
    have he :
        (Worker.schedulerStep
          (Worker.schedulerStep
            (Worker.configureSync "https://h/r.git" "tok" "main" "t0")
            false "t1" "boom").1
          true "t2" "").1
        = Worker.updateSyncStatus
            (Worker.updateSyncStatus
              (Worker.configureSync "https://h/r.git" "tok" "main" "t0")
              false "t1" "boom")
            true "t2" "" := by decide
    exact he ▸ h2
  · decide

/-- C3 amended: in every reachable sync configuration, `stopped = true`
implies `failure_count ≥ 5`; a failed cycle from a running state opens the
breaker exactly when the incremented count reaches 5; the scheduler skips
stopped users without a sync attempt; a successful cycle sets
`failure_count = 0`, `stopped = false` and removes `last_failure` but keeps
`last_failure_error`; the explicit reset clears all four fields. -/
theorem C3_amended_circuit_breaker (c : Worker.SyncConfig)
    (hr : Worker.ReachableConfig c) :
    (c.stopped = true → Worker.MAX_FAILURES ≤ c.failure_count)
      ∧ (∀ now err, c.stopped = false →
          ((Worker.updateSyncStatus c false now err).stopped = true
            ↔ Worker.MAX_FAILURES ≤ c.failure_count + 1))
      ∧ (c.stopped = true → ∀ syncOk now err,
          Worker.schedulerStep c syncOk now err = (c, false))
      ∧ (∀ now err,
          (Worker.updateSyncStatus c true now err).failure_count = 0
          ∧ (Worker.updateSyncStatus c true now err).stopped = false
          ∧ (Worker.updateSyncStatus c true now err).last_failure = none
          ∧ (Worker.updateSyncStatus c true now err).last_failure_error
              = c.last_failure_error)
      ∧ (∀ now,
          (Worker.resetFailures c now).failure_count = 0
          ∧ (Worker.resetFailures c now).stopped = false
          ∧ (Worker.resetFailures c now).last_failure = none
          ∧ (Worker.resetFailures c now).last_failure_error = none) := by
  refine ⟨reachable_stopped_implies_max hr, ?_, ?_, ?_, ?_⟩
  · intro now err hs
    by_cases hm : Worker.MAX_FAILURES ≤ c.failure_count + 1 <;>
      simp [Worker.updateSyncStatus, hs, hm]
  · intro hs syncOk now err
    simp [Worker.schedulerStep, hs]
  · intro now err
    simp [Worker.updateSyncStatus]
  · intro now
    simp [Worker.resetFailures]

/-- C3 witness: the amended statement applied to the freshly configured
state, which is reachable by construction. -/
theorem C3_amended_circuit_breaker_witness :
    (Worker.resetFailures
        (Worker.configureSync "https://h/r.git" "tok" "main" "t0")
        "t1").last_failure_error = none
      ∧ (Worker.updateSyncStatus
          (Worker.configureSync "https://h/r.git" "tok" "main" "t0")
          true "t1" "").failure_count = 0 :=
  ⟨((C3_amended_circuit_breaker
      (Worker.configureSync "https://h/r.git" "tok" "main" "t0")
      (Worker.ReachableConfig.configured "https://h/r.git" "tok" "main" "t0")).2.2.2.2
      "t1").2.2.2,
   ((C3_amended_circuit_breaker
      (Worker.configureSync "https://h/r.git" "tok" "main" "t0")
      (Worker.ReachableConfig.configured "https://h/r.git" "tok" "main" "t0")).2.2.2.1
      "t1" "").1⟩

/-- Hidden segments trip the final check of `_should_exclude_file` (and
every earlier check also answers `True`), so the file is excluded. -/
theorem shouldExcludeFile_of_any_hidden {rel : List String}
    (h : rel.any Exclusion.hiddenSeg = true) :
    Exclusion.shouldExcludeFile rel = true := by
  unfold Exclusion.shouldExcludeFile
  repeat' split
  all_goals simp [h]

/-- C8: a file whose vault-relative path has a segment starting with a dot
is dropped by all three paths — `list_files` (its user-relative path is
`obsidian_vault :: rel`), the Worker vault scan, and the `search_files`
post-filter, whether the record stored the vault-relative filename (the
Worker convention) or the `obsidian_vault/`-prefixed one (the Gateway tool
argument convention). -/
theorem C8_hidden_segment_excluded_everywhere (rel : List String)
    (h : rel.any Exclusion.hiddenSeg = true) :
    Exclusion.listFilesIncludes ("obsidian_vault" :: rel) = false
      ∧ Exclusion.workerScanIncludes rel = false
      ∧ Exclusion.queryFilterIncludes (some rel) = false
      ∧ Exclusion.queryFilterIncludes (some ("obsidian_vault" :: rel)) = false := by
  have hcons : ("obsidian_vault" :: rel).any Exclusion.hiddenSeg = true := by
    simp [List.any_cons, h]
  refine ⟨?_, ?_, ?_, ?_⟩
  · cases rel with
    | nil => simp at h
    | cons x rest =>
        simp [Exclusion.listFilesIncludes, shouldExcludeFile_of_any_hidden hcons]
  · simp [Exclusion.workerScanIncludes, h]
  · simp [Exclusion.queryFilterIncludes, shouldExcludeFile_of_any_hidden h]
  · simp [Exclusion.queryFilterIncludes, shouldExcludeFile_of_any_hidden hcons]

/-- C8 witness: the concrete hidden path `.git/config.md`. -/
theorem C8_hidden_segment_excluded_witness :
    Exclusion.listFilesIncludes ["obsidian_vault", ".git", "config.md"] = false
      ∧ Exclusion.workerScanIncludes [".git", "config.md"] = false
      ∧ Exclusion.queryFilterIncludes (some [".git", "config.md"]) = false
      ∧ Exclusion.queryFilterIncludes
          (some ["obsidian_vault", ".git", "config.md"]) = false :=
  C8_hidden_segment_excluded_everywhere [".git", "config.md"] (by decide)

/-- C9: for an authenticated request (valid, non-placeholder user id)
carrying non-placeholder repo-url and token headers, the middleware stores
the context, invokes sync auto-configuration before `call_next`, treats a
missing branch header as `main`, and returns the downstream response
whether or not the auto-configuration call fails (the failure only adds a
log event); the modelled auto-configuration itself succeeds on such inputs
and persists (or idempotently keeps) the user's `git_config.json`. -/
theorem C9_middleware_autoconfig_before_dispatch
    (u url tok : String) (brHeader : Option String) (autoConfigFails : Bool)
    (hu0 : u ≠ "") (hu : Storage.isPlaceholder u = false)
    (hurl0 : url ≠ "") (hurl : Storage.isPlaceholder url = false)
    (htok0 : tok ≠ "") (htok : Storage.isPlaceholder tok = false) :
    (Middleware.dispatch ⟨some u, some url, some tok, brHeader⟩
        autoConfigFails).1
      = [Middleware.MwEv.setUser (some u),
         Middleware.MwEv.setHeaders (some url) (some tok)
           ((Middleware.headerVal brHeader).getD "main"),
         Middleware.MwEv.autoConfigureCall u url tok
           ((Middleware.headerVal brHeader).getD "main")]
        ++ (if autoConfigFails then [Middleware.MwEv.logAutoConfigFailure]
            else [])
        ++ [Middleware.MwEv.callNext]
      ∧ (Middleware.dispatch ⟨some u, some url, some tok, brHeader⟩
          autoConfigFails).2
        = Middleware.MwResponse.nextResponse
      ∧ (brHeader = none → (Middleware.headerVal brHeader).getD "main" = "main")
      ∧ (∀ existing now,
          Storage.isPlaceholder ((Middleware.headerVal brHeader).getD "main")
              = false →
          Middleware.auto_configure_obsidian_sync existing url tok
              ((Middleware.headerVal brHeader).getD "main") now
            = .ok (match existing with
                   | some c =>
                       if c.repo_url = url
                           && c.branch = (Middleware.headerVal brHeader).getD "main"
                       then none
                       else some (Worker.autoConfigSeed url tok
                         ((Middleware.headerVal brHeader).getD "main") now)
                   | none => some (Worker.autoConfigSeed url tok
                       ((Middleware.headerVal brHeader).getD "main") now))) := by
  refine ⟨?_, ?_, ?_, ?_⟩
  · simp [Middleware.dispatch, Middleware.headerVal, hu0, hu, hurl0, hurl,
      htok0, htok]
  · simp [Middleware.dispatch, Middleware.headerVal, hu0, hu, hurl0, hurl,
      htok0, htok]
  · intro hb; simp [hb, Middleware.headerVal]
  · intro existing now hbr
    cases existing with
    | none =>
        simp [Middleware.auto_configure_obsidian_sync, hurl, htok, hbr]
    | some c =>
        simp only [Middleware.auto_configure_obsidian_sync, hurl, htok, hbr,
          Bool.or_self, Bool.false_or, Bool.or_false, if_false,
          Bool.false_eq_true]
        exact (apply_ite Except.ok _ _ _).symm

/-- C9 witness: a concrete authenticated request with real-looking headers,
no branch header, and a failing auto-configuration call. -/
theorem C9_middleware_autoconfig_witness :
    (Middleware.dispatch
        ⟨some "alice", some "https://gh.test/a/vault.git", some "ghp_tok", none⟩
        true).1
      = [Middleware.MwEv.setUser (some "alice"),
         Middleware.MwEv.setHeaders (some "https://gh.test/a/vault.git")
           (some "ghp_tok") "main",
         Middleware.MwEv.autoConfigureCall "alice" "https://gh.test/a/vault.git"
           "ghp_tok" "main"]
        ++ [Middleware.MwEv.logAutoConfigFailure] ++ [Middleware.MwEv.callNext]
      ∧ (Middleware.dispatch
          ⟨some "alice", some "https://gh.test/a/vault.git", some "ghp_tok", none⟩
          true).2
        = Middleware.MwResponse.nextResponse := by
  have h := C9_middleware_autoconfig_before_dispatch "alice"
    "https://gh.test/a/vault.git" "ghp_tok" none true
    (by decide) (by decide) (by decide) (by decide) (by decide) (by decide)
  exact ⟨by simpa using h.1, h.2.1⟩

/-- The indexing loop emits one block per file with exactly one
`INDEX_DELAY` sleep between consecutive blocks. -/
theorem indexLoop_eq_indexLoopSpec (files : List Worker.MdFile) :
    Worker.indexLoop files = Worker.indexLoopSpec files := by
  induction files with
  | nil => rfl
  | cons f rest ih =>
      cases rest with
      | nil => rfl
      | cons g rest2 =>
          show Worker.WEv.index f.rel :: Worker.WEv.updateHash f.rel
              :: Worker.WEv.sleep Worker.INDEX_DELAY_MS
              :: Worker.indexLoop (g :: rest2)
            = Worker.indexLoopSpec (f :: g :: rest2)
          rw [ih]
          simp [Worker.indexLoopSpec, List.intersperse]

/-- C4: in one indexing pass over candidates with pairwise-distinct mtimes
of which more than `MAX_FILES_PER_CYCLE` are changed, the selected files
number exactly `MAX_FILES_PER_CYCLE`, are all changed candidates, are in
mtime-descending order, every changed candidate left out has a strictly
smaller mtime than every selected file, and the loop trace interleaves one
`INDEX_DELAY` sleep between consecutive indexing requests. -/
theorem C4_lifo_throttle (cands : List Worker.MdFile)
    (hdist : cands.Pairwise (fun a b => a.mtime ≠ b.mtime))
    (hmany : Worker.MAX_FILES_PER_CYCLE
      < (cands.filter (fun f => f.changed)).length) :
    (Worker.filesToIndex cands).length = Worker.MAX_FILES_PER_CYCLE
      ∧ (∀ f ∈ Worker.filesToIndex cands, f ∈ cands ∧ f.changed = true)
      ∧ List.Pairwise Worker.mtimeDesc (Worker.filesToIndex cands)
      ∧ (∀ f ∈ Worker.filesToIndex cands, ∀ g ∈ cands, g.changed = true →
          g ∉ Worker.filesToIndex cands → g.mtime < f.mtime)
      ∧ Worker.indexLoop (Worker.filesToIndex cands)
          = Worker.indexLoopSpec (Worker.filesToIndex cands) := by
  have hfti : Worker.filesToIndex cands
      = ((cands.insertionSort Worker.mtimeDesc).filter
          (fun f => f.changed)).take Worker.MAX_FILES_PER_CYCLE := rfl
  have hperm : (cands.insertionSort Worker.mtimeDesc).Perm cands :=
    List.perm_insertionSort _ _
  have hscperm :
      ((cands.insertionSort Worker.mtimeDesc).filter (fun f => f.changed)).Perm
        (cands.filter (fun f => f.changed)) := hperm.filter _
  have hlen : Worker.MAX_FILES_PER_CYCLE
      < ((cands.insertionSort Worker.mtimeDesc).filter
          (fun f => f.changed)).length := by
    rw [hscperm.length_eq]; exact hmany
  have hsorted :
      List.Pairwise Worker.mtimeDesc (cands.insertionSort Worker.mtimeDesc) :=
    List.sorted_insertionSort _ _
  have hscSorted : List.Pairwise Worker.mtimeDesc
      ((cands.insertionSort Worker.mtimeDesc).filter (fun f => f.changed)) :=
    List.Pairwise.sublist (List.filter_sublist _) hsorted
  have hne_s : List.Pairwise (fun a b : Worker.MdFile => a.mtime ≠ b.mtime)
      (cands.insertionSort Worker.mtimeDesc) :=
    (hperm.pairwise_iff (fun h => Ne.symm h)).mpr hdist
  have hne_sc : List.Pairwise (fun a b : Worker.MdFile => a.mtime ≠ b.mtime)
      ((cands.insertionSort Worker.mtimeDesc).filter (fun f => f.changed)) :=
    List.Pairwise.sublist (List.filter_sublist _) hne_s
  have hsplit := List.take_append_drop Worker.MAX_FILES_PER_CYCLE
    ((cands.insertionSort Worker.mtimeDesc).filter (fun f => f.changed))
  have hcross := (List.pairwise_append.mp (hsplit.symm ▸ hscSorted)).2.2
  have hnecross := (List.pairwise_append.mp (hsplit.symm ▸ hne_sc)).2.2
  refine ⟨?_, ?_, ?_, ?_, indexLoop_eq_indexLoopSpec _⟩
  · rw [hfti, List.length_take]
    exact Nat.min_eq_left (Nat.le_of_lt hlen)
  · intro f hf
    rw [hfti] at hf
    rcases List.mem_filter.mp (List.mem_of_mem_take hf) with ⟨hfs, hfc⟩
    exact ⟨hperm.mem_iff.mp hfs, hfc⟩
  · rw [hfti]
    exact List.Pairwise.sublist (List.take_sublist _ _) hscSorted
  · intro f hf g hg hgc hgn
    rw [hfti] at hf hgn
    have hgsc : g ∈ (cands.insertionSort Worker.mtimeDesc).filter
        (fun f => f.changed) :=
      List.mem_filter.mpr ⟨hperm.mem_iff.mpr hg, hgc⟩
    rcases List.mem_append.mp (hsplit.symm ▸ hgsc) with hgtake | hgdrop
    · exact absurd hgtake hgn
    · exact Nat.lt_of_le_of_ne (hcross f hf g hgdrop)
        (Ne.symm (hnecross f hf g hgdrop))

/-- C4 witness: eleven changed files with distinct mtimes — the throttle
keeps exactly ten. -/
theorem C4_lifo_throttle_witness :
    ([⟨["d", "f01.md"], 1, true⟩, ⟨["d", "f02.md"], 2, true⟩,
      ⟨["d", "f03.md"], 3, true⟩, ⟨["d", "f04.md"], 4, true⟩,
      ⟨["d", "f05.md"], 5, true⟩, ⟨["d", "f06.md"], 6, true⟩,
      ⟨["d", "f07.md"], 7, true⟩, ⟨["d", "f08.md"], 8, true⟩,
      ⟨["d", "f09.md"], 9, true⟩, ⟨["d", "f10.md"], 10, true⟩,
      ⟨["d", "f11.md"], 11, true⟩] : List Worker.MdFile).Pairwise
        (fun a b => a.mtime ≠ b.mtime)
      ∧ (Worker.filesToIndex
          [⟨["d", "f01.md"], 1, true⟩, ⟨["d", "f02.md"], 2, true⟩,
           ⟨["d", "f03.md"], 3, true⟩, ⟨["d", "f04.md"], 4, true⟩,
           ⟨["d", "f05.md"], 5, true⟩, ⟨["d", "f06.md"], 6, true⟩,
           ⟨["d", "f07.md"], 7, true⟩, ⟨["d", "f08.md"], 8, true⟩,
           ⟨["d", "f09.md"], 9, true⟩, ⟨["d", "f10.md"], 10, true⟩,
           ⟨["d", "f11.md"], 11, true⟩]).length = Worker.MAX_FILES_PER_CYCLE :=
  ⟨by decide,
   (C4_lifo_throttle
     [⟨["d", "f01.md"], 1, true⟩, ⟨["d", "f02.md"], 2, true⟩,
      ⟨["d", "f03.md"], 3, true⟩, ⟨["d", "f04.md"], 4, true⟩,
      ⟨["d", "f05.md"], 5, true⟩, ⟨["d", "f06.md"], 6, true⟩,
      ⟨["d", "f07.md"], 7, true⟩, ⟨["d", "f08.md"], 8, true⟩,
      ⟨["d", "f09.md"], 9, true⟩, ⟨["d", "f10.md"], 10, true⟩,
      ⟨["d", "f11.md"], 11, true⟩]
     (by decide) (by decide)).1⟩
